import Mathlib

/-!
# ProxySwitcher: environment evaluation, debounced state machine, control loops

A shallow embedding of `pkg/manager/manager.go` and of the two control loops of
`pkg/platform` (`WatchWithInterrupt`, `ServiceRunner.Execute`).

Modelling conventions.
* The mutable `ProxyManager` is passed explicitly; every operation returns the new
  manager together with the list of externally visible events it produced, in order
  (logger calls, effector calls).
* What the operating system answers on one tick is an input (`World`): the result of
  `platform.GetAdaptersAddresses()`, the result of `net.Interfaces()`, and whether
  `platform.UpdateProxyRegistry` would return `nil` if it were called on that tick.
* Go `int` fields are embedded as `Int`.  `consecutiveCnt` grows by at most one per tick,
  so the 64-bit bound is not reached by any run shorter than `2^63` ticks.
* Logger calls are recorded with their format string; the variadic arguments are dropped.
-/

namespace ProxySwitcher

/-! ## Constants of `pkg/manager` and `pkg/platform` -/

/-- Constant `StateUnknown` of manager.go. -/
def StateUnknown : Int := -1

/-- Constant `StateOff` of manager.go. -/
def StateOff : Int := 0

/-- Constant `StateOn` of manager.go. -/
def StateOn : Int := 1

/-- Constant `DebounceThreshold` of manager.go. -/
def DebounceThreshold : Int := 2

/-- Constant `IfTypeIEEE80211` of network_win.go. -/
def IfTypeIEEE80211 : Nat := 71

/-- Go standard library `net.FlagUp` (`1 << 0`). -/
def FlagUp : Nat := 1

/-- Go standard library `net.FlagLoopback` (`1 << 2`). -/
def FlagLoopback : Nat := 4

/-! ## Data model -/

/-- One octet. -/
abbrev Byte := Fin 256

/-- The fields of `windows.IpAdapterAddresses` read by the evaluator; `FriendlyName` is
the value of `platform.UTF16PtrToString(a.FriendlyName)`. -/
structure IpAdapterAddresses where
  FriendlyName : String
  IfType : Nat
  deriving DecidableEq, Repr

/-- A 4-byte address, as returned by a successful `net.IP.To4()`. -/
structure IPv4 where
  a : Byte
  b : Byte
  c : Byte
  d : Byte
  deriving DecidableEq, Repr

/-- Go `net.IPNet`; only the `IP` byte slice is read. -/
structure IPNet where
  IP : List Byte
  deriving DecidableEq, Repr

/-- A value of interface type `net.Addr`: either a `*net.IPNet` or some other
implementation (for which the type assertion `addr.(*net.IPNet)` fails). -/
inductive Addr where
  | ipnet (n : IPNet)
  | other
  deriving DecidableEq, Repr

/-- Go `net.Interface` as seen by the evaluator; `Addrs` is the first component of the
result of `iface.Addrs()` (its error is discarded by the source). -/
structure Interface where
  Name : String
  Flags : Nat
  Addrs : List Addr
  deriving DecidableEq, Repr

/-- Service states of `svc.State` used by `Execute`. -/
inductive SvcState where
  | Stopped
  | Running
  | otherState (code : Nat)
  deriving DecidableEq, Repr

/-- Go `svc.Status`, with the fields set by the source. -/
structure Status where
  State : SvcState
  Accepts : Nat
  deriving DecidableEq, Repr

/-- Externally visible actions, in the order the program performs them. -/
inductive Event where
  /-- A call `Logger.Info(format, ...)`. -/
  | info (format : String)
  /-- A call `Logger.Error(format, ...)`. -/
  | error (format : String)
  /-- A call `platform.UpdateProxyRegistry(enable, address)`. -/
  | updateProxyRegistry (enable : Bool) (address : String)
  /-- A call `platform.CleanProxyRegistry()`. -/
  | cleanProxyRegistry
  /-- A control loop enters `mgr.CheckAndApply()` (or `m.Handler()`). -/
  | checkAndApply
  /-- A control loop enters its `select` statement and waits for an event. -/
  | selectWait
  /-- A send `s <- status` on the service status channel. -/
  | status (s : Status)
  deriving DecidableEq, Repr

/-- The mutable fields of `ProxyManager` (the logger is represented by the event list). -/
structure ProxyManager where
  ProxyAddress : String
  lastState : Int
  pendingState : Int
  consecutiveCnt : Int
  deriving DecidableEq, Repr

/-- What the operating system answers during one call of `CheckAndApply`. -/
structure World where
  /-- Result of `platform.GetAdaptersAddresses()`. -/
  adapters : Except String (List IpAdapterAddresses)
  /-- Result of `net.Interfaces()`. -/
  interfaces : Except String (List Interface)
  /-- Whether `platform.UpdateProxyRegistry` returns `nil` when called on this tick. -/
  updateOk : Bool

/-- The two accumulators of `evaluateEnvironment`. -/
structure Weights where
  hasCompanyWired : Bool
  hasExternalWifi : Bool
  deriving DecidableEq, Repr

/-! ## `pkg/manager` -/

/-- Function `NewProxyManager(addr, l)`. -/
def NewProxyManager (addr : String) : ProxyManager :=
  { ProxyAddress := addr
    lastState := StateUnknown
    pendingState := StateUnknown
    consecutiveCnt := 0 }

/-- Helper of `To4`: a slice of length four as an `IPv4`. -/
def quad : List Byte → Option IPv4
  | [a, b, c, d] => some ⟨a, b, c, d⟩
  | _ => none

/-- Go `net.IP.To4`: a 4-byte slice is returned as is, a 16-byte slice with the
IPv4-in-IPv6 prefix (ten zero bytes, `0xff`, `0xff`) gives its last four bytes, anything
else gives `nil`. -/
def To4 (ip : List Byte) : Option IPv4 :=
  if ip.length = 4 then quad ip
  else if ip.length = 16 ∧ (ip.take 10).all (fun x => x == 0) = true
      ∧ ip[10]? = some 255 ∧ ip[11]? = some 255 then quad (ip.drop 12)
  else none

/-- The digit table `"0123456789"` of Go `net/netip`. -/
def digits : List Char := ['0', '1', '2', '3', '4', '5', '6', '7', '8', '9']

/-- Go `netip.appendDecimal`: the decimal digits of one octet, without leading zeros. -/
def appendDecimal (b : List Char) (x : Byte) : List Char :=
  let b1 := if x.val ≥ 100 then b ++ [digits.getD (x.val / 100) '0'] else b
  let b2 := if x.val ≥ 10 then b1 ++ [digits.getD (x.val / 10 % 10) '0'] else b1
  b2 ++ [digits.getD (x.val % 10) '0']

/-- Go `net.IP.String` on a 4-byte address: dotted decimal. -/
def IPv4.String (ip : IPv4) : String :=
  let r0 := appendDecimal [] ip.a ++ ['.']
  let r1 := appendDecimal r0 ip.b ++ ['.']
  let r2 := appendDecimal r1 ip.c ++ ['.']
  String.mk (appendDecimal r2 ip.d)

/-- Go `strings.HasPrefix`: `len(s) >= len(p) && s[:len(p)] == p` (the strings compared here
are ASCII, so characters and bytes coincide). -/
def HasPrefix (s p : String) : Bool :=
  decide (p.data.length ≤ s.data.length) && (s.data.take p.data.length == p.data)

/-- The inner adapter loop of `evaluateEnvironment` (lines 99-105): the first adapter whose
friendly name equals the interface name decides `isWifi`; none leaves it `false`. -/
def isWifi (name : String) : List IpAdapterAddresses → Bool
  | [] => false
  | a :: rest =>
    if a.FriendlyName = name then decide (a.IfType = IfTypeIEEE80211)
    else isWifi name rest

/-- One iteration of the address loop of `evaluateEnvironment` (lines 108-133). -/
def scanAddr (wifi : Bool) (acc : Weights) (addr : Addr) : Weights :=
  match addr with
  | Addr.other => acc
  | Addr.ipnet n =>
    match To4 n.IP with
    | none => acc
    | some ipv4 =>
      let ipStr := ipv4.String
      let isInternal := HasPrefix ipStr "10."
      if wifi then
        if !isInternal then { acc with hasExternalWifi := true } else acc
      else
        if isInternal then { acc with hasCompanyWired := true } else acc

/-- One iteration of the interface loop of `evaluateEnvironment` (lines 92-134). -/
def scanInterface (adapters : List IpAdapterAddresses) (acc : Weights)
    (iface : Interface) : Weights :=
  if iface.Flags &&& FlagUp = 0 ∨ iface.Flags &&& FlagLoopback ≠ 0 then acc
  else iface.Addrs.foldl (scanAddr (isWifi iface.Name adapters)) acc

/-- Method `ProxyManager.evaluateEnvironment`: the target state and the logger calls made. -/
def evaluateEnvironment (m : ProxyManager) (w : World) : Int × List Event :=
  match w.adapters with
  | Except.error _ => (m.lastState, [Event.error "获取系统适配器快照失败: %v"])
  | Except.ok adapters =>
    match w.interfaces with
    | Except.error _ => (m.lastState, [Event.error "扫描网卡失败: %v"])
    | Except.ok interfaces =>
      let acc := interfaces.foldl (scanInterface adapters) ⟨false, false⟩
      if acc.hasExternalWifi then (StateOff, [])
      else if acc.hasCompanyWired then (StateOn, [])
      else (StateOff, [])

/-- Method `ProxyManager.applyState`; `updateOk` says whether `UpdateProxyRegistry` returns
`nil`. -/
def applyState (m : ProxyManager) (state : Int) (updateOk : Bool) :
    ProxyManager × List Event :=
  let enable := decide (state = StateOn)
  if updateOk then
    ({ m with lastState := state, consecutiveCnt := 0 },
      [Event.info "检测到环境变化，正在准备切换代理状态为: %v",
       Event.updateProxyRegistry enable m.ProxyAddress,
       Event.info ">>> 代理切换成功！当前状态: [%s], 目标地址: [%s]"])
  else
    (m,
      [Event.info "检测到环境变化，正在准备切换代理状态为: %v",
       Event.updateProxyRegistry enable m.ProxyAddress,
       Event.error "核心切换动作失败: %v"])

/-- Lines 51-70 of `ProxyManager.CheckAndApply`: the debounce logic applied to the target
obtained on line 49. -/
def CheckAndApplyTarget (m : ProxyManager) (target : Int) (updateOk : Bool) :
    ProxyManager × List Event :=
  if target = m.lastState then
    ({ m with consecutiveCnt := 0, pendingState := target }, [])
  else
    let m1 : ProxyManager :=
      if target ≠ m.pendingState then
        { m with pendingState := target, consecutiveCnt := 1 }
      else
        { m with consecutiveCnt := m.consecutiveCnt + 1 }
    if m1.consecutiveCnt ≥ DebounceThreshold then applyState m1 target updateOk
    else (m1, [])

/-- Method `ProxyManager.CheckAndApply`: line 49 followed by lines 51-70. -/
def CheckAndApply (m : ProxyManager) (w : World) : ProxyManager × List Event :=
  let r := evaluateEnvironment m w
  let s := CheckAndApplyTarget m r.1 w.updateOk
  (s.1, r.2 ++ s.2)

/-- Successive `CheckAndApply` ticks on given targets; each tick carries its target and
whether the effector would succeed on that tick. -/
def runTargets (m : ProxyManager) : List (Int × Bool) → ProxyManager × List Event
  | [] => (m, [])
  | tk :: rest =>
    let s := CheckAndApplyTarget m tk.1 tk.2
    let r := runTargets s.1 rest
    (r.1, s.2 ++ r.2)

/-- Whether an event is an effector call made by `applyState`. -/
def Event.isUpdate : Event → Bool
  | Event.updateProxyRegistry _ _ => true
  | _ => false

/-- Whether an event is a `Logger.Error` call. -/
def Event.isError : Event → Bool
  | Event.error _ => true
  | _ => false

/-- The effector calls among a list of events. -/
def effectorCalls (evs : List Event) : List Event := evs.filter Event.isUpdate

/-- The strictly alternating target sequence `start, other, start, ...`, one tick for each
given effector outcome. -/
def alternating (start other : Int) : List Bool → List (Int × Bool)
  | [] => []
  | ok :: oks => (start, ok) :: alternating other start oks

/-! ### The evaluator's decision rule, as the specification words it -/

/-- The IPv4 address carried by an interface address, if any. -/
def ipv4Of : Addr → Option IPv4
  | Addr.ipnet n => To4 n.IP
  | Addr.other => none

/-- The IPv4 addresses bound to an interface. -/
def ipv4Addrs (iface : Interface) : List IPv4 := iface.Addrs.filterMap ipv4Of

/-- An interface that is up and not a loopback device. -/
def qualifying (iface : Interface) : Bool :=
  decide (iface.Flags &&& FlagUp ≠ 0) && decide (iface.Flags &&& FlagLoopback = 0)

/-- Wireless classification: the first snapshot adapter whose friendly name equals the
interface name has `IfType` 71; no matching adapter means non-wireless. -/
def wireless (adapters : List IpAdapterAddresses) (iface : Interface) : Bool :=
  match adapters.find? (fun a => decide (a.FriendlyName = iface.Name)) with
  | some a => decide (a.IfType = 71)
  | none => false

/-- Some qualifying wireless interface has an IPv4 address not starting with `10.`. -/
def anyExternalWifi (adapters : List IpAdapterAddresses) (ifaces : List Interface) : Bool :=
  ifaces.any fun i =>
    qualifying i && wireless adapters i &&
      (ipv4Addrs i).any fun ip => !HasPrefix ip.String "10."

/-- Some qualifying non-wireless interface has an IPv4 address starting with `10.`. -/
def anyCompanyWired (adapters : List IpAdapterAddresses) (ifaces : List Interface) : Bool :=
  ifaces.any fun i =>
    qualifying i && !wireless adapters i &&
      (ipv4Addrs i).any fun ip => HasPrefix ip.String "10."

/-- The three-rule priority decision of the specification. -/
def specTarget (adapters : List IpAdapterAddresses) (ifaces : List Interface) : Int :=
  if anyExternalWifi adapters ifaces then StateOff
  else if anyCompanyWired adapters ifaces then StateOn
  else StateOff

/-! ## `pkg/platform`: the two control loops -/

/-- Go `svc.AcceptStop`. -/
def AcceptStop : Nat := 1

/-- Go `svc.AcceptShutdown`. -/
def AcceptShutdown : Nat := 4

/-- Constant `cmdsAccepted` of `Execute`. -/
def cmdsAccepted : Nat := AcceptStop ||| AcceptShutdown

/-- Result of running a control loop on a finite sequence of events: the manager, the
actions performed in order, and whether the function has returned (`false`: it is still
blocked in `select`). `Execute` always returns `(false, 0)`. -/
structure LoopResult where
  mgr : ProxyManager
  trace : List Event
  returned : Bool
  deriving DecidableEq, Repr

/-- An event received by the `select` of `WatchWithInterrupt`. -/
inductive WatchEvent where
  /-- Receive `<-ticker.C`, with what the system answers during the evaluation. -/
  | tick (w : World)
  /-- Receive `<-sigChan`, with whether `CleanProxyRegistry` returns `nil`. -/
  | signal (cleanOk : Bool)

/-- The `case sig := <-sigChan` branch of `WatchWithInterrupt` (lines 91-98). -/
def watchShutdown (cleanOk : Bool) : List Event :=
  [Event.info "接收到系统信号 [%v]，准备清理现场...",
   Event.cleanProxyRegistry,
   if cleanOk then Event.info "系统代理已重置为初始状态。"
   else Event.error "清理注册表失败: %v",
   Event.info "程序安全退出。"]

/-- The `for`/`select` loop of `WatchWithInterrupt` (lines 86-100). -/
def watchLoop (m : ProxyManager) : List WatchEvent → LoopResult
  | [] => ⟨m, [Event.selectWait], false⟩
  | WatchEvent.tick w :: rest =>
    let s := CheckAndApply m w
    let r := watchLoop s.1 rest
    ⟨r.mgr, [Event.selectWait, Event.checkAndApply] ++ s.2 ++ r.trace, r.returned⟩
  | WatchEvent.signal cleanOk :: _ =>
    ⟨m, Event.selectWait :: watchShutdown cleanOk, true⟩

/-- Function `WatchWithInterrupt(mgr, l)`; `startup` is what the system answers during the
evaluation of line 84. -/
def WatchWithInterrupt (m : ProxyManager) (startup : World) (events : List WatchEvent) :
    LoopResult :=
  let s := CheckAndApply m startup
  let r := watchLoop s.1 events
  ⟨r.mgr,
    [Event.info "=== 开启代理自动监测 (间隔: 5秒) ===",
     Event.info "=== 按下 Ctrl+C 退出并重置系统代理 ===",
     Event.checkAndApply] ++ s.2 ++ r.trace,
    r.returned⟩

/-- Go `svc.Cmd` values distinguished by `Execute`. -/
inductive Cmd where
  | Stop
  | Interrogate
  | Shutdown
  | otherCmd (code : Nat)
  deriving DecidableEq, Repr

/-- Go `svc.ChangeRequest`. -/
structure ChangeRequest where
  Cmd : Cmd
  CurrentStatus : Status
  deriving DecidableEq, Repr

/-- An event received by the `select` of `ServiceRunner.Execute`. -/
inductive SvcEvent where
  /-- Receive `<-ticker.C`, with what the system answers during the evaluation. -/
  | tick (w : World)
  /-- Receive `c := <-r`, with whether `CleanProxyRegistry` returns `nil` if it is called. -/
  | request (c : ChangeRequest) (cleanOk : Bool)

/-- What `Execute` does after `break loop` (lines 53-55). -/
def afterLoop : List Event := [Event.status ⟨SvcState.Stopped, 0⟩]

/-- The `case svc.Stop, svc.Shutdown` branch of `Execute` (lines 42-47) followed by the
code after the loop. -/
def serviceShutdown (cleanOk : Bool) : List Event :=
  [Event.info "接收到停止信号，正在清理环境...", Event.cleanProxyRegistry]
    ++ (if cleanOk then [] else [Event.error "服务停止时重置注册表失败: %v"])
    ++ afterLoop

/-- The labelled `for`/`select` loop of `ServiceRunner.Execute` (lines 30-52) followed by
lines 53-55; `Handler` is `CheckAndApply` of the manager (`RunAsService`). -/
def executeLoop (m : ProxyManager) : List SvcEvent → LoopResult
  | [] => ⟨m, [Event.selectWait], false⟩
  | SvcEvent.tick w :: rest =>
    let s := CheckAndApply m w
    let r := executeLoop s.1 rest
    ⟨r.mgr, [Event.selectWait, Event.checkAndApply] ++ s.2 ++ r.trace, r.returned⟩
  | SvcEvent.request c cleanOk :: rest =>
    match c.Cmd with
    | Cmd.Interrogate =>
      let r := executeLoop m rest
      ⟨r.mgr, [Event.selectWait, Event.status c.CurrentStatus] ++ r.trace, r.returned⟩
    | Cmd.Stop | Cmd.Shutdown =>
      ⟨m, Event.selectWait :: serviceShutdown cleanOk, true⟩
    | Cmd.otherCmd _ =>
      let r := executeLoop m rest
      ⟨r.mgr,
        [Event.selectWait, Event.error "接收到未预料的控制请求: #%d"] ++ r.trace,
        r.returned⟩

/-- Method `ServiceRunner.Execute(args, r, s)`: lines 22-28, then the loop. -/
def Execute (m : ProxyManager) (events : List SvcEvent) : LoopResult :=
  let r := executeLoop m events
  ⟨r.mgr,
    [Event.status ⟨SvcState.Running, cmdsAccepted⟩, Event.info "服务逻辑循环已启动"]
      ++ r.trace,
    r.returned⟩

/-- The events of a trace that precede the first wait in `select`. -/
def beforeFirstWait (tr : List Event) : List Event :=
  tr.takeWhile fun e => decide (e ≠ Event.selectWait)

/-- The relation between the debounce fields that every reachable manager satisfies: the
counter is not negative, and a zero counter means the pending state is the confirmed one. -/
def Debounced (m : ProxyManager) : Prop :=
  0 ≤ m.consecutiveCnt ∧ (m.consecutiveCnt = 0 → m.pendingState = m.lastState)

/-- Whether a watch event is a timer fire. -/
def WatchEvent.isTick : WatchEvent → Bool
  | WatchEvent.tick _ => true
  | WatchEvent.signal _ => false

/-- Whether a service event is a Stop or Shutdown request. -/
def SvcEvent.isTermination : SvcEvent → Bool
  | SvcEvent.request c _ => decide (c.Cmd = Cmd.Stop) || decide (c.Cmd = Cmd.Shutdown)
  | SvcEvent.tick _ => false

/-! ## Debounce state machine: basic facts -/

theorem CheckAndApplyTarget_pendingState (m : ProxyManager) (t : Int) (ok : Bool) :
    (CheckAndApplyTarget m t ok).1.pendingState = t := by
  unfold CheckAndApplyTarget applyState
  by_cases h1 : t = m.lastState
  · simp [h1]
  · by_cases h2 : t = m.pendingState
    · cases ok <;> simp [h1, h2] <;> split_ifs <;> simp
    · cases ok <;> simp [h1, h2, DebounceThreshold]

theorem CheckAndApplyTarget_address (m : ProxyManager) (t : Int) (ok : Bool) :
    (CheckAndApplyTarget m t ok).1.ProxyAddress = m.ProxyAddress := by
  unfold CheckAndApplyTarget applyState
  by_cases h1 : t = m.lastState
  · simp [h1]
  · by_cases h2 : t = m.pendingState
    · cases ok <;> simp [h1, h2] <;> split_ifs <;> simp
    · cases ok <;> simp [h1, h2, DebounceThreshold]

theorem Debounced_init (addr : String) : Debounced (NewProxyManager addr) := by
  simp [Debounced, NewProxyManager]

theorem Debounced_step (m : ProxyManager) (t : Int) (ok : Bool) (h : Debounced m) :
    Debounced (CheckAndApplyTarget m t ok).1 := by
  obtain ⟨h0, hz⟩ := h
  unfold CheckAndApplyTarget applyState Debounced
  by_cases h1 : t = m.lastState
  · simp [h1]
  · by_cases h2 : t = m.pendingState
    · cases ok <;> simp [h1, h2, DebounceThreshold] <;> split_ifs <;> simp <;> omega
    · cases ok <;> simp [h1, h2, DebounceThreshold]

theorem runTargets_append (m : ProxyManager) (xs ys : List (Int × Bool)) :
    runTargets m (xs ++ ys) =
      ((runTargets (runTargets m xs).1 ys).1,
        (runTargets m xs).2 ++ (runTargets (runTargets m xs).1 ys).2) := by
  induction xs generalizing m with
  | nil => simp [runTargets]
  | cons x xs ih => simp [runTargets, ih, List.append_assoc]

theorem runTargets_snoc (m : ProxyManager) (xs : List (Int × Bool)) (tk : Int × Bool) :
    (runTargets m (xs ++ [tk])).1 = (CheckAndApplyTarget (runTargets m xs).1 tk.1 tk.2).1 := by
  simp [runTargets_append, runTargets]

theorem Debounced_run (m : ProxyManager) (ticks : List (Int × Bool)) (h : Debounced m) :
    Debounced (runTargets m ticks).1 := by
  induction ticks generalizing m with
  | nil => simpa [runTargets] using h
  | cons x xs ih => simpa [runTargets] using ih _ (Debounced_step m x.1 x.2 h)

theorem runTargets_pendingState (m : ProxyManager) (ticks : List (Int × Bool)) :
    (runTargets m ticks).1.pendingState =
      (ticks.getLast?.map Prod.fst).getD m.pendingState := by
  induction ticks using List.reverseRecOn with
  | nil => simp [runTargets]
  | append_singleton xs x _ =>
    rw [runTargets_snoc, CheckAndApplyTarget_pendingState]
    simp

theorem effector_invoked_iff (m : ProxyManager) (t : Int) (ok : Bool) (h : Debounced m) :
    effectorCalls (CheckAndApplyTarget m t ok).2 ≠ [] ↔
      t = m.pendingState ∧ t ≠ m.lastState := by
  obtain ⟨h0, hz⟩ := h
  unfold CheckAndApplyTarget applyState effectorCalls
  by_cases h1 : t = m.lastState
  · simp [h1]
  · by_cases h2 : t = m.pendingState
    · have hne : m.consecutiveCnt ≠ 0 := fun hc => h1 (h2.trans (hz hc))
      have hge : DebounceThreshold ≤ m.consecutiveCnt + 1 := by
        unfold DebounceThreshold; omega
      subst h2
      cases ok <;> simp [h1, hge, Event.isUpdate, List.filter]
    · cases ok <;> simp [h1, h2, DebounceThreshold]

theorem CheckAndApply_eq_target (m : ProxyManager) (w : World) :
    (CheckAndApply m w).1 = (CheckAndApplyTarget m (evaluateEnvironment m w).1 w.updateOk).1
    ∧ effectorCalls (CheckAndApply m w).2
        = effectorCalls (CheckAndApplyTarget m (evaluateEnvironment m w).1 w.updateOk).2 := by
  refine ⟨rfl, ?_⟩
  have h : effectorCalls (evaluateEnvironment m w).2 = [] := by
    unfold evaluateEnvironment effectorCalls
    split
    · simp [Event.isUpdate]
    · split
      · simp [Event.isUpdate]
      · dsimp only
        split_ifs <;> simp
  unfold effectorCalls at h ⊢
  simp [CheckAndApply, List.filter_append, h]

/-- C1: from the manager built by `NewProxyManager`, after any finite sequence `pre` of
ticks (targets and effector outcomes arbitrary), the next tick with target `t` invokes the
effector if and only if the previous tick exists and had the same target `t`, and `t`
differs from `lastState` as it stands at the start of this tick; on the first tick the
effector is never invoked. -/
theorem C1_effector_invoked_iff (addr : String) (pre : List (Int × Bool)) (t : Int)
    (ok : Bool) :
    (effectorCalls (CheckAndApplyTarget (runTargets (NewProxyManager addr) pre).1 t ok).2 ≠ []
      ↔ (pre.getLast?.map Prod.fst = some t
          ∧ t ≠ (runTargets (NewProxyManager addr) pre).1.lastState))
    ∧ effectorCalls (CheckAndApplyTarget (NewProxyManager addr) t ok).2 = [] := by
  constructor
  · rw [effector_invoked_iff _ _ _ (Debounced_run _ pre (Debounced_init addr)),
      runTargets_pendingState]
    constructor
    · rintro ⟨hp, hl⟩
      refine ⟨?_, hl⟩
      cases hlast : pre.getLast? with
      | none =>
        have hnil : pre = [] := List.getLast?_eq_none_iff.mp hlast
        subst hnil
        simp [hlast, NewProxyManager, runTargets] at hp hl
        exact absurd hp hl
      | some x => simp [hlast] at hp; simp [hp]
    · rintro ⟨hp, hl⟩
      refine ⟨?_, hl⟩
      simp [hp]
  · have h := effector_invoked_iff (NewProxyManager addr) t ok (Debounced_init addr)
    by_contra hne
    obtain ⟨hp, hl⟩ := h.mp hne
    exact hl hp

theorem take_alternating (a b : Int) (oks : List Bool) (k : Nat) :
    (alternating a b oks).take k = alternating a b (oks.take k) := by
  induction oks generalizing a b k with
  | nil => simp [alternating]
  | cons o os ih =>
    cases k with
    | zero => simp [alternating]
    | succ k => simp [alternating, ih]

theorem alternating_quiet (a b : Int) (ha : a ≠ StateUnknown) (hb : b ≠ StateUnknown)
    (hab : a ≠ b) (oks : List Bool) (m : ProxyManager) (hl : m.lastState = StateUnknown)
    (hp : m.pendingState ≠ a) :
    effectorCalls (runTargets m (alternating a b oks)).2 = []
      ∧ (runTargets m (alternating a b oks)).1.lastState = StateUnknown := by
  induction oks generalizing a b m with
  | nil => simp [alternating, runTargets, effectorCalls, hl]
  | cons o os ih =>
    have hstep : CheckAndApplyTarget m a o =
        ({ m with pendingState := a, consecutiveCnt := 1 }, []) := by
      have h1 : a ≠ m.lastState := by rw [hl]; exact ha
      have h2 : a ≠ m.pendingState := fun h => hp h.symm
      simp [CheckAndApplyTarget, h1, h2, DebounceThreshold]
    have h := ih b a hb ha (fun h => hab h.symm)
      { m with pendingState := a, consecutiveCnt := 1 } hl hab
    simp only [alternating, runTargets, hstep]
    simpa [effectorCalls] using h

/-- C3: from the manager built by `NewProxyManager`, feeding the strictly alternating
targets On, Off, On, ... (or Off, On, Off, ...) of any length, with any effector outcomes,
leaves after every tick (every prefix `take k`) no effector call made and
`lastState = StateUnknown`. -/
theorem C3_alternating_never_commits (addr : String) (oks : List Bool) (k : Nat) :
    (effectorCalls
        (runTargets (NewProxyManager addr) ((alternating StateOn StateOff oks).take k)).2 = []
      ∧ (runTargets (NewProxyManager addr)
          ((alternating StateOn StateOff oks).take k)).1.lastState = StateUnknown)
    ∧ (effectorCalls
        (runTargets (NewProxyManager addr) ((alternating StateOff StateOn oks).take k)).2 = []
      ∧ (runTargets (NewProxyManager addr)
          ((alternating StateOff StateOn oks).take k)).1.lastState = StateUnknown) := by
  rw [take_alternating, take_alternating]
  constructor
  · exact alternating_quiet StateOn StateOff (by decide) (by decide) (by decide) _ _ rfl
      (by simp [NewProxyManager, StateUnknown, StateOn])
  · exact alternating_quiet StateOff StateOn (by decide) (by decide) (by decide) _ _ rfl
      (by simp [NewProxyManager, StateUnknown, StateOff])

/-- C4: for a target `t` in On, Off and any `ProxyAddress`, from the manager built by
`NewProxyManager` two consecutive ticks with target `t` and a succeeding effector make no
effector call on the first tick and exactly one on the second, with
`enable = (t == StateOn)` and `address = ProxyAddress`; afterwards `lastState = t` and
`consecutiveCnt = 0`. -/
theorem C4_two_ticks_commit (addr : String) (t : Int) (ok1 : Bool)
    (ht : t = StateOn ∨ t = StateOff) :
    effectorCalls (CheckAndApplyTarget (NewProxyManager addr) t ok1).2 = []
    ∧ effectorCalls
        (CheckAndApplyTarget (CheckAndApplyTarget (NewProxyManager addr) t ok1).1 t true).2
        = [Event.updateProxyRegistry (decide (t = StateOn)) addr]
    ∧ (CheckAndApplyTarget (CheckAndApplyTarget (NewProxyManager addr) t ok1).1 t true).1.lastState
        = t
    ∧ (CheckAndApplyTarget (CheckAndApplyTarget (NewProxyManager addr) t ok1).1 t
        true).1.consecutiveCnt = 0 := by
  rcases ht with rfl | rfl <;>
    simp [CheckAndApplyTarget, applyState, NewProxyManager, effectorCalls, Event.isUpdate,
      StateOn, StateOff, StateUnknown, DebounceThreshold, List.filter]

/-- Witness of C4 at `t = StateOn`: exactly one commit call with `enable = true`, and
`lastState = StateOn` afterwards. -/
theorem C4_two_ticks_commit_witness :
    (StateOn = StateOn ∨ StateOn = StateOff)
    ∧ effectorCalls (CheckAndApplyTarget (NewProxyManager "127.0.0.1:7890") StateOn true).2 = []
    ∧ effectorCalls
        (CheckAndApplyTarget
          (CheckAndApplyTarget (NewProxyManager "127.0.0.1:7890") StateOn true).1 StateOn
          true).2
        = [Event.updateProxyRegistry (decide (StateOn = StateOn)) "127.0.0.1:7890"]
    ∧ (CheckAndApplyTarget
          (CheckAndApplyTarget (NewProxyManager "127.0.0.1:7890") StateOn true).1 StateOn
          true).1.lastState = StateOn
    ∧ (CheckAndApplyTarget
          (CheckAndApplyTarget (NewProxyManager "127.0.0.1:7890") StateOn true).1 StateOn
          true).1.consecutiveCnt = 0 :=
  ⟨Or.inl rfl, C4_two_ticks_commit "127.0.0.1:7890" StateOn true (Or.inl rfl)⟩

theorem failing_run (addr : String) (k : Nat) :
    (runTargets (NewProxyManager addr) (List.replicate (k + 2) (StateOn, false))).1 =
      { ProxyAddress := addr, lastState := StateUnknown, pendingState := StateOn,
        consecutiveCnt := (k : Int) + 2 } := by
  induction k with
  | zero =>
    simp [List.replicate, runTargets, CheckAndApplyTarget, applyState, NewProxyManager,
      StateOn, StateUnknown, DebounceThreshold]
  | succ k ih =>
    rw [List.replicate_succ', runTargets_snoc, ih]
    have hge : DebounceThreshold ≤ (k : Int) + 2 + 1 := by unfold DebounceThreshold; omega
    simp [CheckAndApplyTarget, applyState, StateOn, StateUnknown, hge]
    omega

/-- C5: a failing effector call leaves the manager untouched (`applyState` changes neither
`lastState` nor `consecutiveCnt`); hence from the initial manager the samples On, On and
any number `k` of further On samples, all with a failing effector, leave
`lastState = StateUnknown` with the counter not reset (`k + 2`), and the next On tick
invokes the effector on that very tick; when that call succeeds `lastState` becomes On,
when it fails `lastState` stays Unknown. -/
theorem C5_commit_failure_retry (addr : String) (k : Nat) (m : ProxyManager) (state : Int)
    (ok : Bool) :
    ((applyState m state false).1 = m
      ∧ effectorCalls (applyState m state false).2
          = [Event.updateProxyRegistry (decide (state = StateOn)) m.ProxyAddress])
    ∧ (runTargets (NewProxyManager addr)
        (List.replicate (k + 2) (StateOn, false))).1.lastState = StateUnknown
    ∧ (runTargets (NewProxyManager addr)
        (List.replicate (k + 2) (StateOn, false))).1.consecutiveCnt = (k : Int) + 2
    ∧ effectorCalls (CheckAndApplyTarget
        (runTargets (NewProxyManager addr) (List.replicate (k + 2) (StateOn, false))).1
        StateOn ok).2 = [Event.updateProxyRegistry true addr]
    ∧ (CheckAndApplyTarget
        (runTargets (NewProxyManager addr) (List.replicate (k + 2) (StateOn, false))).1
        StateOn true).1.lastState = StateOn
    ∧ (CheckAndApplyTarget
        (runTargets (NewProxyManager addr) (List.replicate (k + 2) (StateOn, false))).1
        StateOn false).1.lastState = StateUnknown := by
  have hge : DebounceThreshold ≤ (k : Int) + 2 + 1 := by unfold DebounceThreshold; omega
  refine ⟨⟨?_, ?_⟩, ?_, ?_, ?_, ?_, ?_⟩
  · simp [applyState]
  · simp [applyState, effectorCalls, Event.isUpdate, List.filter]
  · rw [failing_run]
  · rw [failing_run]
  · rw [failing_run]
    cases ok <;>
      simp [CheckAndApplyTarget, applyState, StateOn, StateUnknown, hge, effectorCalls,
        Event.isUpdate, List.filter]
  · rw [failing_run]
    simp [CheckAndApplyTarget, applyState, StateOn, StateUnknown, hge]
  · rw [failing_run]
    simp [CheckAndApplyTarget, applyState, StateOn, StateUnknown, hge]

/-- C6: when the adapter snapshot or the interface list cannot be obtained,
`evaluateEnvironment` returns the current `lastState` and makes exactly one `Logger.Error`
call (and nothing else), and the enclosing `CheckAndApply` makes no effector call and
leaves `lastState` unchanged, whatever the debounce state. -/
theorem C6_observation_failure (m : ProxyManager) (w : World)
    (h : (∃ e, w.adapters = Except.error e) ∨ (∃ e, w.interfaces = Except.error e)) :
    (evaluateEnvironment m w).1 = m.lastState
    ∧ (∃ fmt, (evaluateEnvironment m w).2 = [Event.error fmt])
    ∧ effectorCalls (CheckAndApply m w).2 = []
    ∧ (CheckAndApply m w).1.lastState = m.lastState := by
  have key : (evaluateEnvironment m w).1 = m.lastState
      ∧ ∃ fmt, (evaluateEnvironment m w).2 = [Event.error fmt] := by
    unfold evaluateEnvironment
    rcases h with ⟨e, he⟩ | ⟨e, he⟩
    · rw [he]; exact ⟨rfl, _, rfl⟩
    · rw [he]
      cases w.adapters with
      | error _ => exact ⟨rfl, _, rfl⟩
      | ok _ => exact ⟨rfl, _, rfl⟩
  obtain ⟨h1, fmt, h2⟩ := key
  refine ⟨h1, ⟨fmt, h2⟩, ?_, ?_⟩
  · simp [CheckAndApply, h1, h2, CheckAndApplyTarget, effectorCalls, Event.isUpdate,
      List.filter]
  · simp [CheckAndApply, h1, CheckAndApplyTarget]

/-- Witness of C6: the adapter snapshot fails while the manager has confirmed On. -/
theorem C6_observation_failure_witness :
    ((∃ e, (World.mk (Except.error "overflow") (Except.ok []) true).adapters = Except.error e)
      ∨ (∃ e, (World.mk (Except.error "overflow") (Except.ok []) true).interfaces
          = Except.error e))
    ∧ (evaluateEnvironment ⟨"p", StateOn, StateOn, 0⟩
        (World.mk (Except.error "overflow") (Except.ok []) true)).1 = StateOn
    ∧ effectorCalls (CheckAndApply ⟨"p", StateOn, StateOn, 0⟩
        (World.mk (Except.error "overflow") (Except.ok []) true)).2 = [] :=
  have h := C6_observation_failure ⟨"p", StateOn, StateOn, 0⟩
    (World.mk (Except.error "overflow") (Except.ok []) true) (Or.inl ⟨"overflow", rfl⟩)
  ⟨Or.inl ⟨"overflow", rfl⟩, h.1, h.2.2.1⟩

theorem counter_step (m : ProxyManager) (t : Int) (ok : Bool) (h : Debounced m) :
    (CheckAndApplyTarget m t ok).1.consecutiveCnt ≤ m.consecutiveCnt + 1
    ∧ ((CheckAndApplyTarget m t ok).1.consecutiveCnt ≤ 1
        ∨ (ok = false ∧ effectorCalls (CheckAndApplyTarget m t ok).2 ≠ [])) := by
  obtain ⟨h0, hz⟩ := h
  unfold CheckAndApplyTarget applyState effectorCalls
  by_cases h1 : t = m.lastState
  · simp [h1]; omega
  · by_cases h2 : t = m.pendingState
    · subst h2
      have hne : m.consecutiveCnt ≠ 0 := fun hc => h1 (hz hc)
      have hge : DebounceThreshold ≤ m.consecutiveCnt + 1 := by
        unfold DebounceThreshold; omega
      cases ok <;> simp [h1, hge, Event.isUpdate, List.filter]
      omega
    · cases ok <;> simp [h1, h2, DebounceThreshold] <;> omega

theorem counter_le_length (m : ProxyManager) (ticks : List (Int × Bool)) (h : Debounced m) :
    (runTargets m ticks).1.consecutiveCnt ≤ m.consecutiveCnt + ticks.length := by
  induction ticks generalizing m with
  | nil => simp [runTargets]
  | cons x xs ih =>
    have h1 := (counter_step m x.1 x.2 h).1
    have h2 := ih _ (Debounced_step m x.1 x.2 h)
    simp only [runTargets, List.length_cons]
    push_cast
    omega

/-- C7 as stated fails: three On samples whose effector calls fail leave
`consecutiveCnt = 3`, above `DebounceThreshold`. -/
theorem C7_counterexample :
    ¬ ((runTargets (NewProxyManager "")
        [(StateOn, false), (StateOn, false), (StateOn, false)]).1.consecutiveCnt
          ≤ DebounceThreshold) := by
  decide

/-- C7 amended: in every state reachable from the manager built by `NewProxyManager`,
`consecutiveCnt` lies between 0 and the number of ticks run; it exceeds 1 only when the
last tick invoked the effector and that call failed (the counter is then not reset); so as
long as every effector call succeeds it stays at most 1, below `DebounceThreshold`. -/
theorem C7_counter_bound (addr : String) (ticks : List (Int × Bool)) :
    0 ≤ (runTargets (NewProxyManager addr) ticks).1.consecutiveCnt
    ∧ (runTargets (NewProxyManager addr) ticks).1.consecutiveCnt ≤ ticks.length
    ∧ ((runTargets (NewProxyManager addr) ticks).1.consecutiveCnt ≤ 1
        ∨ ∃ pre tk, ticks = pre ++ [tk] ∧ tk.2 = false
            ∧ effectorCalls
                (CheckAndApplyTarget (runTargets (NewProxyManager addr) pre).1 tk.1 tk.2).2
                ≠ [])
    ∧ ((∀ tk ∈ ticks, tk.2 = true) →
        (runTargets (NewProxyManager addr) ticks).1.consecutiveCnt < DebounceThreshold) := by
  have hthird : (runTargets (NewProxyManager addr) ticks).1.consecutiveCnt ≤ 1
        ∨ ∃ pre tk, ticks = pre ++ [tk] ∧ tk.2 = false
            ∧ effectorCalls
                (CheckAndApplyTarget (runTargets (NewProxyManager addr) pre).1 tk.1 tk.2).2
                ≠ [] := by
    cases ticks using List.reverseRecOn with
    | nil => left; simp [runTargets, NewProxyManager]
    | append_singleton pre tk =>
      rw [runTargets_snoc]
      rcases (counter_step _ tk.1 tk.2 (Debounced_run _ pre (Debounced_init addr))).2
        with h | ⟨h1, h2⟩
      · exact Or.inl h
      · exact Or.inr ⟨pre, tk, rfl, h1, h2⟩
  refine ⟨(Debounced_run _ ticks (Debounced_init addr)).1, ?_, hthird, ?_⟩
  · have h := counter_le_length _ ticks (Debounced_init addr)
    simpa [NewProxyManager] using h
  · intro hall
    rcases hthird with h | ⟨pre, tk, rfl, h1, _⟩
    · unfold DebounceThreshold; omega
    · have := hall tk (by simp)
      rw [h1] at this
      exact absurd this (by decide)

/-- Witness of C7 amended: On, On, Off, Off with a succeeding effector. -/
theorem C7_counter_bound_witness :
    (∀ tk ∈ [(StateOn, true), (StateOn, true), (StateOff, true), (StateOff, true)],
        tk.2 = true)
    ∧ (runTargets (NewProxyManager "p")
        [(StateOn, true), (StateOn, true), (StateOff, true),
          (StateOff, true)]).1.consecutiveCnt < DebounceThreshold :=
  ⟨by decide,
    (C7_counter_bound "p"
      [(StateOn, true), (StateOn, true), (StateOff, true), (StateOff, true)]).2.2.2
      (by decide)⟩

/-! ## Address rendering and the internal-address test -/

theorem appendDecimal_eq (b : List Char) (x : Byte) :
    appendDecimal b x = b ++ appendDecimal [] x := by
  unfold appendDecimal
  split_ifs <;> simp

theorem ten_data : ("10." : String).data = ['1', '0', '.'] := rfl

theorem digit_ne_dot (k : Nat) : digits.getD k '0' ≠ '.' := by
  unfold digits
  rcases k with _ | _ | _ | _ | _ | _ | _ | _ | _ | _ | k <;> simp

theorem digit_eq_one (k : Nat) (h : k < 10) : digits.getD k '0' = '1' ↔ k = 1 := by
  unfold digits
  interval_cases k <;> simp

theorem digit_eq_zero (k : Nat) (h : k < 10) : digits.getD k '0' = '0' ↔ k = 0 := by
  unfold digits
  interval_cases k <;> simp

theorem HasPrefix_ten (a : Byte) (rest : List Char) :
    HasPrefix (String.mk (appendDecimal [] a ++ '.' :: rest)) "10." = true ↔ a.val = 10 := by
  have h1 := digit_eq_one (a.val / 10 % 10) (Nat.mod_lt _ (by decide))
  have h0 := digit_eq_zero (a.val % 10) (Nat.mod_lt _ (by decide))
  have hd := digit_ne_dot (a.val % 10)
  simp only [List.getD_eq_getElem?_getD] at h1 h0 hd
  unfold HasPrefix appendDecimal
  rw [ten_data]
  by_cases c100 : a.val ≥ 100
  · have c10 : a.val ≥ 10 := by omega
    simp [c100, c10, hd]
    omega
  · by_cases c10 : a.val ≥ 10
    · simp [c100, c10, h1, h0]
      omega
    · simp [c100, c10]
      omega
theorem IPv4_String_eq (ip : IPv4) :
    ip.String = String.mk (appendDecimal [] ip.a ++ '.' ::
      (appendDecimal [] ip.b ++ '.' :: (appendDecimal [] ip.c ++ '.' ::
        appendDecimal [] ip.d))) := by
  unfold IPv4.String
  simp only []
  rw [appendDecimal_eq _ ip.d, appendDecimal_eq _ ip.c, appendDecimal_eq _ ip.b]
  simp [List.append_assoc]

theorem internal_iff (ip : IPv4) : HasPrefix ip.String "10." = true ↔ ip.a.val = 10 := by
  rw [IPv4_String_eq]
  exact HasPrefix_ten ip.a _

/-- C10: for every 4-byte address `a.b.c.d` (which `To4` returns unchanged), the test
`strings.HasPrefix(ip.String(), "10.")` holds exactly when the first octet is 10; in
particular addresses `100.x.y.z`, `101.x.y.z` and `110.x.y.z` are never internal. -/
theorem C10_internal_iff_first_octet (a b c d : Byte) :
    To4 [a, b, c, d] = some ⟨a, b, c, d⟩
    ∧ (HasPrefix (IPv4.String ⟨a, b, c, d⟩) "10." = true ↔ a = 10)
    ∧ HasPrefix (IPv4.String ⟨100, b, c, d⟩) "10." = false
    ∧ HasPrefix (IPv4.String ⟨101, b, c, d⟩) "10." = false
    ∧ HasPrefix (IPv4.String ⟨110, b, c, d⟩) "10." = false := by
  have hne : ∀ x : Byte, x.val ≠ 10 → HasPrefix (IPv4.String ⟨x, b, c, d⟩) "10." = false := by
    intro x hx
    cases h : HasPrefix (IPv4.String ⟨x, b, c, d⟩) "10."
    · rfl
    · exact absurd ((internal_iff ⟨x, b, c, d⟩).mp h) hx
  refine ⟨by simp [To4, quad], ?_, hne 100 (by decide), hne 101 (by decide),
    hne 110 (by decide)⟩
  rw [internal_iff]
  constructor
  · intro h; exact Fin.ext h
  · intro h; rw [h]; rfl

/-! ## The evaluator against its decision rule -/

theorem foldl_scanAddr (wifi : Bool) (addrs : List Addr) (acc : Weights) :
    addrs.foldl (scanAddr wifi) acc =
      ⟨acc.hasCompanyWired ||
          (!wifi && (addrs.filterMap ipv4Of).any fun ip => HasPrefix ip.String "10."),
        acc.hasExternalWifi ||
          (wifi && (addrs.filterMap ipv4Of).any fun ip => !HasPrefix ip.String "10.")⟩ := by
  induction addrs generalizing acc with
  | nil => simp
  | cons x xs ih =>
    rw [List.foldl_cons, ih]
    cases x with
    | other => simp [scanAddr, ipv4Of]
    | ipnet n =>
      cases h4 : To4 n.IP with
      | none => simp [scanAddr, ipv4Of, h4]
      | some ip =>
        cases wifi <;> cases hp : HasPrefix ip.String "10." <;>
          simp [scanAddr, ipv4Of, h4, hp, Bool.or_assoc]

theorem isWifi_eq_wireless (adapters : List IpAdapterAddresses) (iface : Interface) :
    isWifi iface.Name adapters = wireless adapters iface := by
  unfold wireless
  induction adapters with
  | nil => simp [isWifi]
  | cons a rest ih =>
    by_cases h : a.FriendlyName = iface.Name
    · simp [isWifi, List.find?, h, IfTypeIEEE80211]
    · simp [isWifi, List.find?, h, ih]

theorem foldl_scanInterface (adapters : List IpAdapterAddresses) (ifaces : List Interface)
    (acc : Weights) :
    ifaces.foldl (scanInterface adapters) acc =
      ⟨acc.hasCompanyWired || anyCompanyWired adapters ifaces,
        acc.hasExternalWifi || anyExternalWifi adapters ifaces⟩ := by
  induction ifaces generalizing acc with
  | nil => simp [anyCompanyWired, anyExternalWifi]
  | cons i rest ih =>
    rw [List.foldl_cons, ih]
    unfold scanInterface
    by_cases hq : i.Flags &&& FlagUp = 0 ∨ i.Flags &&& FlagLoopback ≠ 0
    · have hq2 : qualifying i = false := by
        unfold qualifying
        rcases hq with h | h <;> simp [h]
      simp [hq, anyCompanyWired, anyExternalWifi, hq2]
    · have hq2 : qualifying i = true := by
        unfold qualifying
        push_neg at hq
        simp [hq.1, hq.2]
      rw [if_neg hq, foldl_scanAddr, isWifi_eq_wireless]
      simp [anyCompanyWired, anyExternalWifi, hq2, ipv4Addrs, Bool.or_assoc]

theorem evaluateEnvironment_ok (m : ProxyManager) (adapters : List IpAdapterAddresses)
    (ifaces : List Interface) (ok : Bool) :
    evaluateEnvironment m ⟨Except.ok adapters, Except.ok ifaces, ok⟩
      = (specTarget adapters ifaces, []) := by
  simp only [evaluateEnvironment, foldl_scanInterface, specTarget]
  cases anyExternalWifi adapters ifaces <;> cases anyCompanyWired adapters ifaces <;> simp

/-- C2: when the adapter snapshot and the interface list are obtained without error,
`evaluateEnvironment` logs nothing and returns Off if some up, non-loopback wireless
interface has an IPv4 address not starting with `10.`, otherwise On if some up,
non-loopback non-wireless interface has an IPv4 address starting with `10.`, otherwise
Off. Hence: external wifi together with wired `10.0.0.5` gives Off; wired `10.0.0.5` alone
gives On; wireless `10.0.0.5` alone gives Off; no qualifying interface (none at all, or
only a loopback or a down one) gives Off. -/
theorem C2_evaluator_priority (m : ProxyManager) (adapters : List IpAdapterAddresses)
    (ifaces : List Interface) (ok : Bool) :
    evaluateEnvironment m ⟨Except.ok adapters, Except.ok ifaces, ok⟩
      = (specTarget adapters ifaces, [])
    ∧ (evaluateEnvironment m
        ⟨Except.ok [⟨"WLAN", 71⟩, ⟨"Ethernet", 6⟩],
         Except.ok [⟨"WLAN", 51, [Addr.ipnet ⟨[192, 168, 43, 7]⟩]⟩,
                    ⟨"Ethernet", 51, [Addr.ipnet ⟨[10, 0, 0, 5]⟩]⟩], ok⟩).1 = StateOff
    ∧ (evaluateEnvironment m
        ⟨Except.ok [⟨"WLAN", 71⟩, ⟨"Ethernet", 6⟩],
         Except.ok [⟨"Ethernet", 51, [Addr.ipnet ⟨[10, 0, 0, 5]⟩]⟩], ok⟩).1 = StateOn
    ∧ (evaluateEnvironment m
        ⟨Except.ok [⟨"WLAN", 71⟩, ⟨"Ethernet", 6⟩],
         Except.ok [⟨"WLAN", 51, [Addr.ipnet ⟨[10, 0, 0, 5]⟩]⟩], ok⟩).1 = StateOff
    ∧ (evaluateEnvironment m ⟨Except.ok adapters, Except.ok [], ok⟩).1 = StateOff
    ∧ (evaluateEnvironment m
        ⟨Except.ok [⟨"WLAN", 71⟩, ⟨"Ethernet", 6⟩],
         Except.ok [⟨"Loopback", 5, [Addr.ipnet ⟨[10, 0, 0, 5]⟩]⟩,
                    ⟨"Ethernet", 50, [Addr.ipnet ⟨[10, 0, 0, 5]⟩]⟩], ok⟩).1 = StateOff := by
  refine ⟨evaluateEnvironment_ok m adapters ifaces ok, ?_, ?_, ?_, ?_, ?_⟩ <;>
    rw [evaluateEnvironment_ok]
  · decide
  · decide
  · decide
  · simp [specTarget, anyExternalWifi, anyCompanyWired, StateOff]
  · decide

/-! ## Control loops -/

theorem CheckAndApply_events (m : ProxyManager) (w : World) (e : Event)
    (he : e ∈ (CheckAndApply m w).2) :
    e ≠ Event.cleanProxyRegistry ∧ e ≠ Event.checkAndApply ∧ e ≠ Event.selectWait := by
  have h1 : ∀ x ∈ (evaluateEnvironment m w).2, ∃ f, x = Event.error f := by
    intro x hx
    unfold evaluateEnvironment at hx
    split at hx
    · simp at hx; exact ⟨_, hx⟩
    · split at hx
      · simp at hx; exact ⟨_, hx⟩
      · dsimp only at hx
        split_ifs at hx <;> simp at hx
  have h2 : ∀ (t : Int) (ok : Bool), ∀ x ∈ (CheckAndApplyTarget m t ok).2,
      (∃ f, x = Event.info f) ∨ (∃ f, x = Event.error f)
        ∨ ∃ b a, x = Event.updateProxyRegistry b a := by
    intro t ok x hx
    unfold CheckAndApplyTarget applyState at hx
    by_cases c1 : t = m.lastState
    · simp [c1] at hx
    · by_cases c2 : t = m.pendingState
      · subst c2
        by_cases c3 : DebounceThreshold ≤ m.consecutiveCnt + 1
        · cases ok <;> simp [c1, c3] at hx <;> rcases hx with h | h | h <;> simp [h]
        · simp [c1, c3] at hx
      · simp [c1, c2, DebounceThreshold] at hx
  simp only [CheckAndApply, List.mem_append] at he
  rcases he with he | he
  · obtain ⟨f, rfl⟩ := h1 e he
    simp
  · rcases h2 _ _ e he with ⟨f, rfl⟩ | ⟨f, rfl⟩ | ⟨b, a, rfl⟩ <;> simp

theorem CheckAndApply_count_clean (m : ProxyManager) (w : World) :
    (CheckAndApply m w).2.count Event.cleanProxyRegistry = 0 :=
  List.count_eq_zero.mpr fun h => (CheckAndApply_events m w _ h).1 rfl

theorem watchShutdown_count (cleanOk : Bool) :
    (watchShutdown cleanOk).count Event.cleanProxyRegistry = 1 := by
  cases cleanOk <;> decide

theorem serviceShutdown_count (cleanOk : Bool) :
    (serviceShutdown cleanOk).count Event.cleanProxyRegistry = 1 := by
  cases cleanOk <;> decide

theorem watchLoop_signal (m : ProxyManager) (pre post : List WatchEvent) (cleanOk : Bool)
    (hpre : ∀ e ∈ pre, e.isTick = true) :
    (watchLoop m (pre ++ WatchEvent.signal cleanOk :: post)).returned = true
    ∧ (watchLoop m (pre ++ WatchEvent.signal cleanOk :: post)).trace
        = (watchLoop m pre).trace ++ watchShutdown cleanOk
    ∧ (watchLoop m pre).trace.count Event.cleanProxyRegistry = 0 := by
  induction pre generalizing m with
  | nil => simp [watchLoop]
  | cons e rest ih =>
    cases e with
    | signal b => simpa [WatchEvent.isTick] using hpre (WatchEvent.signal b) (by simp)
    | tick w =>
      obtain ⟨h1, h2, h3⟩ := ih (CheckAndApply m w).1
        (fun e he => hpre e (List.mem_cons_of_mem _ he))
      refine ⟨by simpa [watchLoop] using h1, by simp [watchLoop, h2], ?_⟩
      simp [watchLoop, List.count_cons, List.count_append, h3, CheckAndApply_count_clean]

theorem executeLoop_stop (m : ProxyManager) (pre post : List SvcEvent) (c : ChangeRequest)
    (cleanOk : Bool) (hpre : ∀ e ∈ pre, e.isTermination = false)
    (hc : c.Cmd = Cmd.Stop ∨ c.Cmd = Cmd.Shutdown) :
    (executeLoop m (pre ++ SvcEvent.request c cleanOk :: post)).returned = true
    ∧ (executeLoop m (pre ++ SvcEvent.request c cleanOk :: post)).trace
        = (executeLoop m pre).trace ++ serviceShutdown cleanOk
    ∧ (executeLoop m pre).trace.count Event.cleanProxyRegistry = 0 := by
  induction pre generalizing m with
  | nil => rcases hc with h | h <;> simp [executeLoop, h]
  | cons e rest ih =>
    have hrest : ∀ e ∈ rest, e.isTermination = false :=
      fun e he => hpre e (List.mem_cons_of_mem _ he)
    cases e with
    | tick w =>
      obtain ⟨h1, h2, h3⟩ := ih (CheckAndApply m w).1 hrest
      refine ⟨by simpa [executeLoop] using h1, by simp [executeLoop, h2], ?_⟩
      simp [executeLoop, List.count_cons, List.count_append, h3, CheckAndApply_count_clean]
    | request c2 b =>
      obtain ⟨h1, h2, h3⟩ := ih m hrest
      have hterm := hpre (SvcEvent.request c2 b) (by simp)
      cases hcmd : c2.Cmd with
      | Stop => simp [SvcEvent.isTermination, hcmd] at hterm
      | Shutdown => simp [SvcEvent.isTermination, hcmd] at hterm
      | Interrogate =>
        refine ⟨by simpa [executeLoop, hcmd] using h1, by simp [executeLoop, hcmd, h2], ?_⟩
        simp [executeLoop, hcmd, List.count_cons, h3]
      | otherCmd n =>
        refine ⟨by simpa [executeLoop, hcmd] using h1, by simp [executeLoop, hcmd, h2], ?_⟩
        simp [executeLoop, hcmd, List.count_cons, h3]

theorem executeLoop_head (m : ProxyManager) (events : List SvcEvent) :
    ∃ tl, (executeLoop m events).trace = Event.selectWait :: tl := by
  cases events with
  | nil => exact ⟨_, rfl⟩
  | cons e rest =>
    cases e with
    | tick w => exact ⟨_, rfl⟩
    | request c b =>
      cases hcmd : c.Cmd <;> simp [executeLoop, hcmd]

/-- C8, evaluated on the code: `WatchWithInterrupt` performs an evaluation before it first
waits in `select`, for every event trace; `ServiceRunner.Execute` does not: before its
first wait it only sends the Running status and logs, for every event trace, and when the
first event is a Stop request the whole run contains no evaluation at all. -/
theorem C8_execute_skips_startup_evaluation (m : ProxyManager) (startup : World)
    (wev : List WatchEvent) (sev : List SvcEvent) :
    Event.checkAndApply ∈ beforeFirstWait (WatchWithInterrupt m startup wev).trace
    ∧ beforeFirstWait (Execute m sev).trace
        = [Event.status ⟨SvcState.Running, cmdsAccepted⟩, Event.info "服务逻辑循环已启动"]
    ∧ Event.checkAndApply ∉ beforeFirstWait (Execute m sev).trace
    ∧ Event.checkAndApply ∉
        (Execute m [SvcEvent.request ⟨Cmd.Stop, ⟨SvcState.Running, cmdsAccepted⟩⟩ true]).trace
    := by
  have hexec : beforeFirstWait (Execute m sev).trace
      = [Event.status ⟨SvcState.Running, cmdsAccepted⟩, Event.info "服务逻辑循环已启动"] := by
    obtain ⟨tl, htl⟩ := executeLoop_head m sev
    simp [Execute, beforeFirstWait, htl, List.takeWhile]
  refine ⟨?_, hexec, ?_, ?_⟩
  · simp [WatchWithInterrupt, beforeFirstWait, List.takeWhile]
  · rw [hexec]; simp
  · simp [Execute, executeLoop, serviceShutdown, afterLoop]

/-- C9: in both control loops, after any events that are not termination events, the
first termination event (a signal for `WatchWithInterrupt`, a Stop or Shutdown request for
`Execute`) makes the loop return, whatever the manager state and whatever events follow;
the actions performed are those performed up to the wait for that event followed by the
shutdown branch alone, which contains exactly one `CleanProxyRegistry` call (the only one
of the run) and no evaluation; a failing cleanup is logged with `Logger.Error`. -/
theorem C9_termination_cleanup (m : ProxyManager) (startup : World)
    (wpre wpost : List WatchEvent) (spre spost : List SvcEvent) (c : ChangeRequest)
    (cleanOk : Bool)
    (hw : ∀ e ∈ wpre, e.isTick = true) (hs : ∀ e ∈ spre, e.isTermination = false)
    (hc : c.Cmd = Cmd.Stop ∨ c.Cmd = Cmd.Shutdown) :
    ((WatchWithInterrupt m startup (wpre ++ WatchEvent.signal cleanOk :: wpost)).returned = true
      ∧ (WatchWithInterrupt m startup (wpre ++ WatchEvent.signal cleanOk :: wpost)).trace
          = (WatchWithInterrupt m startup wpre).trace ++ watchShutdown cleanOk
      ∧ (WatchWithInterrupt m startup
          (wpre ++ WatchEvent.signal cleanOk :: wpost)).trace.count Event.cleanProxyRegistry = 1
      ∧ Event.checkAndApply ∉ watchShutdown cleanOk
      ∧ Event.error "清理注册表失败: %v" ∈ watchShutdown false)
    ∧ ((Execute m (spre ++ SvcEvent.request c cleanOk :: spost)).returned = true
      ∧ (Execute m (spre ++ SvcEvent.request c cleanOk :: spost)).trace
          = (Execute m spre).trace ++ serviceShutdown cleanOk
      ∧ (Execute m
          (spre ++ SvcEvent.request c cleanOk :: spost)).trace.count Event.cleanProxyRegistry = 1
      ∧ Event.checkAndApply ∉ serviceShutdown cleanOk
      ∧ Event.error "服务停止时重置注册表失败: %v" ∈ serviceShutdown false) := by
  obtain ⟨w1, w2, w3⟩ := watchLoop_signal (CheckAndApply m startup).1 wpre wpost cleanOk hw
  obtain ⟨s1, s2, s3⟩ := executeLoop_stop m spre spost c cleanOk hs hc
  refine ⟨⟨?_, ?_, ?_, ?_, ?_⟩, ⟨?_, ?_, ?_, ?_, ?_⟩⟩
  · simpa [WatchWithInterrupt] using w1
  · simp [WatchWithInterrupt, w2]
  · simp [WatchWithInterrupt, w2, List.count_cons, List.count_append, w3,
      CheckAndApply_count_clean, watchShutdown_count]
  · cases cleanOk <;> simp [watchShutdown]
  · simp [watchShutdown]
  · simpa [Execute] using s1
  · simp [Execute, s2]
  · simp [Execute, s2, List.count_cons, List.count_append, s3, serviceShutdown_count]
  · cases cleanOk <;> simp [serviceShutdown, afterLoop]
  · simp [serviceShutdown, afterLoop]

/-- Witness of C9: one timer fire, then a termination event whose cleanup fails, then a
further timer fire that is never handled; the manager has confirmed On. -/
theorem C9_termination_cleanup_witness :
    (∀ e ∈ [WatchEvent.tick ⟨Except.ok [], Except.ok [], true⟩], e.isTick = true)
    ∧ (∀ e ∈ [SvcEvent.tick ⟨Except.ok [], Except.ok [], true⟩,
              SvcEvent.request ⟨Cmd.Interrogate, ⟨SvcState.Running, cmdsAccepted⟩⟩ true],
          e.isTermination = false)
    ∧ ((⟨Cmd.Shutdown, ⟨SvcState.Running, cmdsAccepted⟩⟩ : ChangeRequest).Cmd = Cmd.Stop
        ∨ (⟨Cmd.Shutdown, ⟨SvcState.Running, cmdsAccepted⟩⟩ : ChangeRequest).Cmd
            = Cmd.Shutdown)
    ∧ (WatchWithInterrupt ⟨"p", StateOn, StateOn, 0⟩ ⟨Except.ok [], Except.ok [], true⟩
        ([WatchEvent.tick ⟨Except.ok [], Except.ok [], true⟩] ++ WatchEvent.signal false ::
          [WatchEvent.tick ⟨Except.ok [], Except.ok [], true⟩])).returned = true
    ∧ (Execute ⟨"p", StateOn, StateOn, 0⟩
        ([SvcEvent.tick ⟨Except.ok [], Except.ok [], true⟩,
          SvcEvent.request ⟨Cmd.Interrogate, ⟨SvcState.Running, cmdsAccepted⟩⟩ true]
          ++ SvcEvent.request ⟨Cmd.Shutdown, ⟨SvcState.Running, cmdsAccepted⟩⟩ false ::
            [SvcEvent.tick ⟨Except.ok [], Except.ok [], true⟩])).trace.count
          Event.cleanProxyRegistry = 1 :=
  have hw : ∀ e ∈ [WatchEvent.tick ⟨Except.ok [], Except.ok [], true⟩], e.isTick = true := by
    simp [WatchEvent.isTick]
  have hs : ∀ e ∈ [SvcEvent.tick ⟨Except.ok [], Except.ok [], true⟩,
      SvcEvent.request ⟨Cmd.Interrogate, ⟨SvcState.Running, cmdsAccepted⟩⟩ true],
      e.isTermination = false := by
    simp [SvcEvent.isTermination]
  have h := C9_termination_cleanup ⟨"p", StateOn, StateOn, 0⟩
    ⟨Except.ok [], Except.ok [], true⟩
    [WatchEvent.tick ⟨Except.ok [], Except.ok [], true⟩]
    [WatchEvent.tick ⟨Except.ok [], Except.ok [], true⟩]
    [SvcEvent.tick ⟨Except.ok [], Except.ok [], true⟩,
      SvcEvent.request ⟨Cmd.Interrogate, ⟨SvcState.Running, cmdsAccepted⟩⟩ true]
    [SvcEvent.tick ⟨Except.ok [], Except.ok [], true⟩]
    ⟨Cmd.Shutdown, ⟨SvcState.Running, cmdsAccepted⟩⟩ false hw hs (Or.inr rfl)
  ⟨hw, hs, Or.inr rfl, h.1.1, h.2.2.2.1⟩

end ProxySwitcher
